import Mathlib

/-!
Verification of the resolution and substitution core of the plugin-manager
utilities: keyword substitution over CNI configuration trees, bridge-info
extraction, local network/router resolution, and metadata orchestration.
The definitions below are shallow embeddings of the Go functions in
`utils/utils.go`.
-/

set_option autoImplicit false

namespace PluginManager

mutual
/-- A Go `interface{}` configuration value: a string leaf, a numeric (or other
scalar) leaf, a `[]interface{}` list, or a `map[string]interface{}` mapping
represented as a key-ordered association structure. -/
inductive Node where
  | str : String → Node
  | num : Int → Node
  | list : NodeList → Node
  | map : Props → Node
  deriving DecidableEq
inductive NodeList where
  | nil : NodeList
  | cons : Node → NodeList → NodeList
  deriving DecidableEq
inductive Props where
  | nil : Props
  | cons : String → Node → Props → Props
  deriving DecidableEq
end

/-- Go map lookup `props[k]` on a `map[string]interface{}` value: the value
bound to the first occurrence of key `k`, if any. -/
def Props.lookup : Props → String → Option Node
  | Props.nil, _ => none
  | Props.cons k v rest, key => if k == key then some v else Props.lookup rest key

/-- Positional access into the entry sequence of a mapping. -/
def Props.get? : Props → Nat → Option (String × Node)
  | Props.nil, _ => none
  | Props.cons k v _, 0 => some (k, v)
  | Props.cons _ _ rest, i + 1 => Props.get? rest i

/-- The reserved keyword marking host-label placeholders (`hostLabelKeyword`). -/
def hostLabelKeyword : String := "__host_label__"

/-- Go `strings.HasPrefix s pre`. -/
def hasPrefixGo (s pre : String) : Bool := pre.data.isPrefixOf s.data

/-- Drop leading whitespace characters. -/
def dropLeadingWs : List Char → List Char
  | [] => []
  | c :: rest => if c.isWhitespace then dropLeadingWs rest else c :: rest

/-- Go `strings.TrimSpace`: remove leading and trailing whitespace. -/
def trimGo (s : String) : String :=
  String.mk (((dropLeadingWs s.data).reverse |> dropLeadingWs).reverse)

/-- Split a character sequence at the first colon, when one occurs. -/
def splitAtFirstColon : List Char → Option (List Char × List Char)
  | [] => none
  | c :: rest =>
    if c = ':' then some ([], rest)
    else
      match splitAtFirstColon rest with
      | some (a, b) => some (c :: a, b)
      | none => none

/-- Go `strings.SplitN(v, ":", 2)`: the whole string when it has no colon,
otherwise the part before the first colon and the remainder after it. -/
def splitN2 (s : String) : List String :=
  match splitAtFirstColon s.data with
  | some (a, b) => [String.mk a, String.mk b]
  | none => [s]

/-- A host snapshot: identity, environment membership and its label map
(`metadata.Host`). Labels are an association list; lookup of a missing key
yields the Go zero value `""`. -/
structure Host where
  UUID : String
  EnvironmentUUID : String
  Labels : List (String × String)
  deriving DecidableEq

/-- Go string-map lookup `m[k]` returning the zero value `""` when absent. -/
def goMapGet (m : List (String × String)) (k : String) : String :=
  ((m.find? (fun p => p.1 == k)).map (fun p => p.2)).getD ""

/-- The per-value action of the substitution loop body on a string value:
`props[aKey] = ""`, then when the split has a second part, trim it, look the
label up, and keep the label value only when it is non-empty. -/
def substString (v : String) (host : Host) : String :=
  if hasPrefixGo v hostLabelKeyword then
    match splitN2 v with
    | _ :: second :: _ =>
      let label := trimGo second
      let labelValue := goMapGet host.Labels label
      if labelValue != "" then labelValue else ""
    | _ => ""
  else v

mutual
/-- Go function `UpdateCNIConfigByKeywords`: a non-mapping node is returned unchanged; a
mapping has each entry rewritten by the loop body. -/
def UpdateCNIConfigByKeywords (config : Node) (host : Host) : Node :=
  match config with
  | Node.map props => Node.map (updateProps props host)
  | _ => config
/-- The `for aKey, aValue := range props` loop of `UpdateCNIConfigByKeywords`:
string values go through the keyword substitution, any other value is updated
recursively. -/
def updateProps (props : Props) (host : Host) : Props :=
  match props with
  | Props.nil => Props.nil
  | Props.cons k (Node.str s) rest =>
      Props.cons k (Node.str (substString s host)) (updateProps rest host)
  | Props.cons k v rest =>
      Props.cons k (UpdateCNIConfigByKeywords v host) (updateProps rest host)
end

/-- The effect of one loop iteration of `UpdateCNIConfigByKeywords` on a single
entry value. -/
def valUpdate (v : Node) (host : Host) : Node :=
  match v with
  | Node.str s => Node.str (substString s host)
  | _ => UpdateCNIConfigByKeywords v host

theorem updateProps_cons (k : String) (v : Node) (rest : Props) (host : Host) :
    updateProps (Props.cons k v rest) host =
      Props.cons k (valUpdate v host) (updateProps rest host) := by
  cases v <;> rfl

/-- Descend through mapping keys to a subtree: `getPath n []` is `n` itself,
and `getPath n (k :: path)` follows key `k` of a mapping node. -/
def getPath : Node → List String → Option Node
  | n, [] => some n
  | Node.map props, k :: rest =>
    match Props.lookup props k with
    | some v => getPath v rest
    | none => none
  | _, _ :: _ => none

/-- A container snapshot (`metadata.Container`): the fields the resolver
reads. -/
structure Container where
  UUID : String
  HostUUID : String
  NetworkUUID : String
  State : String
  deriving DecidableEq

/-- A service snapshot (`metadata.Service`): the fields the resolver reads. -/
structure Service where
  UUID : String
  StackUUID : String
  Kind : String
  Name : String
  PrimaryServiceName : String
  Containers : List Container
  deriving DecidableEq

/-- The Go zero value of `metadata.Service`. -/
def zeroService : Service := ⟨"", "", "", "", "", []⟩

/-- A network snapshot (`metadata.Network`): identity, environment, and the
`Metadata` bag, a `map[string]interface{}`. -/
structure Network where
  UUID : String
  EnvironmentUUID : String
  Metadata : Props
  deriving DecidableEq

/-- The string read from `props[k].(string)`: `""` when the key is absent or
its value is not a string (Go's discarded-ok type assertion). -/
def propsStr (props : Props) (k : String) : String :=
  match Props.lookup props k with
  | some (Node.str s) => s
  | _ => ""

/-- The mapping read from `v.(map[string]interface{})` with discarded ok:
the nil map when the node is not a mapping. -/
def nodeProps : Node → Props
  | Node.map m => m
  | _ => Props.nil

/-- The string read from key `k` of a node that should be a mapping. -/
def nodeStr (n : Node) (k : String) : String := propsStr (nodeProps n) k

/-- The value read by `conf, _ := network.Metadata["cniConfig"].(map[string]interface{})`. -/
def confOf (network : Network) : Props :=
  match Props.lookup network.Metadata "cniConfig" with
  | some (Node.map m) => m
  | _ => Props.nil

/-- Whether an optional metadata value is a mapping node. -/
def isPropsMap : Option Node → Bool
  | some (Node.map _) => true
  | _ => false

/-- The test `_, ok := aNetwork.Metadata["cniConfig"].(map[string]interface{})`. -/
def hasCniConfig (n : Network) : Bool :=
  isPropsMap (Props.lookup n.Metadata "cniConfig")

/-- The `for _, file := range conf` loop of `GetBridgeInfo`: substitute
keywords in each file, read its `type`, `bridge` and `bridgeSubnet` strings,
and break as soon as a `rancher-bridge` file with a non-empty bridge is
seen; `bridgeSubnet` is reassigned on every iteration. -/
def bridgeLoop (host : Host) : Props → String → String → String × String
  | Props.nil, bridge, subnet => (bridge, subnet)
  | Props.cons _ f rest, bridge, _ =>
    let f' := UpdateCNIConfigByKeywords f host
    let props := nodeProps f'
    let cniType := propsStr props "type"
    let checkBridge := propsStr props "bridge"
    let subnet' := propsStr props "bridgeSubnet"
    if cniType == "rancher-bridge" && checkBridge != "" then (checkBridge, subnet')
    else bridgeLoop host rest bridge subnet'

/-- Go function `GetBridgeInfo`: extract the bridge device name and subnet from the
network's CNI configuration. -/
def GetBridgeInfo (network : Network) (host : Host) : String × String :=
  bridgeLoop host (confOf network) "" ""

/-- The tail of `GetLocalNetworksAndRouters` after the CNI-driver candidate
set has been computed: pick the network service from the full service list,
build the router map from its containers on this host, and filter the
networks. -/
def resolveWithCandidates (networks : List Network) (host : Host)
    (services : List Service) (cniDriverServices : List Service) :
    List Network × (String → Option Container) :=
  let networkService : Service :=
    match cniDriverServices with
    | [] => zeroService
    | cd :: _ =>
      match services.find? (fun s =>
          s.StackUUID == cd.StackUUID && s.UUID != cd.UUID &&
          s.Name == s.PrimaryServiceName) with
      | some s => s
      | none => zeroService
  let localRouters : String → Option Container :=
    networkService.Containers.foldl
      (fun m c =>
        if c.HostUUID == host.UUID then
          fun k => if k == c.NetworkUUID then some c else m k
        else m)
      (fun _ => none)
  let localNetworks : List Network :=
    networks.foldl
      (fun acc n =>
        if n.EnvironmentUUID != host.EnvironmentUUID then acc
        else if !(hasCniConfig n) then acc
        else if !((localRouters n.UUID).isSome) then acc
        else acc ++ [n])
      []
  (localNetworks, localRouters)

/-- Go function `GetLocalNetworksAndRouters`: collect the `networkDriverService` kind
services, fall back to the `cni-driver` name filter when there is not exactly
one, and resolve. -/
def GetLocalNetworksAndRouters (networks : List Network) (host : Host)
    (services : List Service) : List Network × (String → Option Container) :=
  let unfilteredCniDriverServices :=
    services.filter (fun s => s.Kind == "networkDriverService")
  let cniDriverServices :=
    if unfilteredCniDriverServices.length != 1 then
      unfilteredCniDriverServices.filter (fun s => s.Name == "cni-driver")
    else unfilteredCniDriverServices
  resolveWithCandidates networks host services cniDriverServices

/-- The metadata collaborator (`metadata.Client`): three fallible fetches. -/
structure MClient (ε : Type) where
  GetNetworks : Except ε (List Network)
  GetSelfHost : Except ε Host
  GetServices : Except ε (List Service)

/-- Go function `GetLocalNetworksAndRoutersFromMetadata`: fetch networks, then the local
host, then services, returning the first error with nil results, and
otherwise the two outputs of `GetLocalNetworksAndRouters` with a nil
error. -/
def GetLocalNetworksAndRoutersFromMetadata {ε : Type} (mc : MClient ε) :
    Option (List Network) × Option (String → Option Container) × Option ε :=
  match mc.GetNetworks with
  | Except.error e => (none, none, some e)
  | Except.ok networks =>
    match mc.GetSelfHost with
    | Except.error e => (none, none, some e)
    | Except.ok host =>
      match mc.GetServices with
      | Except.error e => (none, none, some e)
      | Except.ok services =>
        let r := GetLocalNetworksAndRouters networks host services
        (some r.1, some r.2, none)

/-- Go function `IsContainerConsideredRunning`. -/
def IsContainerConsideredRunning (aContainer : Container) : Bool :=
  aContainer.State == "running" || aContainer.State == "starting" ||
    aContainer.State == "stopping"

/-- The last element of a list satisfying `p`, if any: the value left in a
Go map cell after a sequence of writes under overwrite semantics. -/
def lastMatch {α : Type} (p : α → Bool) : List α → Option α
  | [] => none
  | x :: xs =>
    match lastMatch p xs with
    | some y => some y
    | none => if p x then some x else none

theorem substString_of_not_prefixed (v : String) (host : Host)
    (h : hasPrefixGo v hostLabelKeyword = false) : substString v host = v := by
  simp [substString, h]

theorem hasPrefixGo_empty : hasPrefixGo "" hostLabelKeyword = false := by decide

theorem goMapGet_cases (m : List (String × String)) (k : String) :
    goMapGet m k = "" ∨ ∃ p ∈ m, goMapGet m k = p.2 := by
  cases hf : m.find? (fun p => p.1 == k) with
  | none => left; simp [goMapGet, hf]
  | some p =>
    right
    exact ⟨p, List.mem_of_find?_eq_some hf, by simp [goMapGet, hf]⟩

theorem hasPrefixGo_substString (host : Host)
    (hlab : ∀ p ∈ host.Labels, hasPrefixGo p.2 hostLabelKeyword = false)
    (v : String) (hv : hasPrefixGo v hostLabelKeyword = true) :
    hasPrefixGo (substString v host) hostLabelKeyword = false := by
  simp only [substString, hv, if_pos]
  cases hsp : splitN2 v with
  | nil => exact hasPrefixGo_empty
  | cons a tail =>
    cases tail with
    | nil => exact hasPrefixGo_empty
    | cons b tail2 =>
      dsimp only
      rcases goMapGet_cases host.Labels (trimGo b) with h | ⟨p, hp, he⟩
      · simp [h, hasPrefixGo_empty]
      · rw [he]
        by_cases hz : p.2 = ""
        · simp [hz, hasPrefixGo_empty]
        · have hb : (p.2 != "") = true := by simp [bne, hz]
          rw [if_pos hb]
          exact hlab p hp

theorem substString_idem (host : Host)
    (hlab : ∀ p ∈ host.Labels, hasPrefixGo p.2 hostLabelKeyword = false)
    (v : String) : substString (substString v host) host = substString v host := by
  cases hv : hasPrefixGo v hostLabelKeyword with
  | false => rw [substString_of_not_prefixed _ _ hv, substString_of_not_prefixed _ _ hv]
  | true => exact substString_of_not_prefixed _ _ (hasPrefixGo_substString host hlab v hv)

set_option linter.unusedVariables false in
theorem node_strong_ind (P : Node → Prop)
    (h : ∀ n, (∀ m, sizeOf m < sizeOf n → P m) → P n) (n : Node) : P n :=
  h n (fun m hm => node_strong_ind P h m)
termination_by sizeOf n
decreasing_by exact hm

theorem sizeOf_val_lt (k : String) (v : Node) (rest : Props) :
    sizeOf v < sizeOf (Node.map (Props.cons k v rest)) := by
  simp only [Node.map.sizeOf_spec, Props.cons.sizeOf_spec]
  omega

theorem sizeOf_map_rest_lt (k : String) (v : Node) (rest : Props) :
    sizeOf (Node.map rest) < sizeOf (Node.map (Props.cons k v rest)) := by
  simp only [Node.map.sizeOf_spec, Props.cons.sizeOf_spec]
  have : 0 < sizeOf v := by cases v <;> simp_arith
  omega

theorem updateProps_idem_aux (host : Host)
    (hlab : ∀ p ∈ host.Labels, hasPrefixGo p.2 hostLabelKeyword = false)
    (props : Props)
    (H : ∀ m : Node, sizeOf m < sizeOf (Node.map props) →
        UpdateCNIConfigByKeywords (UpdateCNIConfigByKeywords m host) host =
          UpdateCNIConfigByKeywords m host) :
    updateProps (updateProps props host) host = updateProps props host := by
  cases props with
  | nil => rfl
  | cons k v rest =>
    rw [updateProps_cons, updateProps_cons]
    have hrest : updateProps (updateProps rest host) host = updateProps rest host :=
      updateProps_idem_aux host hlab rest
        (fun m hm => H m (lt_trans hm (sizeOf_map_rest_lt k v rest)))
    rw [hrest]
    have hval : valUpdate (valUpdate v host) host = valUpdate v host := by
      cases v with
      | str s => simp only [valUpdate]; rw [substString_idem host hlab]
      | num i => rfl
      | list l => rfl
      | map m =>
        have h1 : valUpdate (Node.map m) host =
            UpdateCNIConfigByKeywords (Node.map m) host := rfl
        rw [h1]
        have h2 : UpdateCNIConfigByKeywords (Node.map m) host =
            Node.map (updateProps m host) := rfl
        have h3 : valUpdate (Node.map (updateProps m host)) host =
            UpdateCNIConfigByKeywords (Node.map (updateProps m host)) host := rfl
        rw [h2, h3, ← h2]
        exact H (Node.map m) (sizeOf_val_lt k (Node.map m) rest)
    rw [hval]
termination_by sizeOf props

theorem update_idem_of_labels (host : Host)
    (hlab : ∀ p ∈ host.Labels, hasPrefixGo p.2 hostLabelKeyword = false)
    (n : Node) :
    UpdateCNIConfigByKeywords (UpdateCNIConfigByKeywords n host) host =
      UpdateCNIConfigByKeywords n host := by
  induction n using node_strong_ind with
  | _ n ih =>
    cases n with
    | str s => rfl
    | num i => rfl
    | list l => rfl
    | map props =>
      show Node.map (updateProps (updateProps props host) host) =
        Node.map (updateProps props host)
      exact congrArg Node.map (updateProps_idem_aux host hlab props ih)

theorem lookup_updateProps (host : Host) (props : Props) (k : String) :
    Props.lookup (updateProps props host) k =
      (Props.lookup props k).map (fun v => valUpdate v host) := by
  cases props with
  | nil => rfl
  | cons k' v rest =>
    rw [updateProps_cons]
    by_cases hk : k' == k
    · simp [Props.lookup, hk]
    · simp only [Bool.not_eq_true] at hk
      simp [Props.lookup, hk, lookup_updateProps host rest k]
termination_by sizeOf props

/-- Any subtree reached through at least one mapping key is rewritten by
exactly the per-entry action of the substitution loop. -/
theorem getPath_update (host : Host) :
    ∀ (path : List String) (n v : Node), path ≠ [] → getPath n path = some v →
      getPath (UpdateCNIConfigByKeywords n host) path = some (valUpdate v host) := by
  intro path
  induction path with
  | nil => intro n v hne _; exact absurd rfl hne
  | cons k rest ih =>
    intro n v _ hget
    cases n with
    | str s => simp [getPath] at hget
    | num i => simp [getPath] at hget
    | list l => simp [getPath] at hget
    | map props =>
      simp only [getPath] at hget
      cases hl : Props.lookup props k with
      | none => rw [hl] at hget; simp at hget
      | some w =>
        rw [hl] at hget
        show getPath (Node.map (updateProps props host)) (k :: rest) = _
        simp only [getPath, lookup_updateProps host props k, hl, Option.map]
        cases rest with
        | nil =>
          simp only [getPath, Option.some.injEq] at hget
          subst hget
          simp [getPath]
        | cons r rest' =>
          cases w with
          | str s => simp [getPath] at hget
          | num i => exact ih (Node.num i) v (by simp) hget
          | list l => exact ih (Node.list l) v (by simp) hget
          | map m => exact ih (Node.map m) v (by simp) hget

theorem get?_updateProps (host : Host) (props : Props) (i : Nat) :
    Props.get? (updateProps props host) i =
      (Props.get? props i).map (fun p => (p.1, valUpdate p.2 host)) := by
  cases props with
  | nil => rfl
  | cons k v rest =>
    rw [updateProps_cons]
    cases i with
    | zero => rfl
    | succ j => simpa [Props.get?] using get?_updateProps host rest j
termination_by sizeOf props

/-- Lookup in the router map built by the container loop: the last matching
container wins, and the initial map answers otherwise. -/
theorem foldl_routers (hostUUID : String) (cs : List Container)
    (m : String → Option Container) (k : String) :
    (cs.foldl
      (fun m c =>
        if c.HostUUID == hostUUID then
          fun k' => if k' == c.NetworkUUID then some c else m k'
        else m)
      m) k =
    match lastMatch (fun c => c.HostUUID == hostUUID && c.NetworkUUID == k) cs with
    | some c => some c
    | none => m k := by
  induction cs generalizing m with
  | nil => rfl
  | cons c rest ih =>
    simp only [List.foldl_cons, lastMatch]
    rw [ih]
    cases lastMatch (fun c => c.HostUUID == hostUUID && c.NetworkUUID == k) rest with
    | some y => rfl
    | none =>
      by_cases hh : c.HostUUID == hostUUID
      · simp only [hh, if_pos, Bool.true_and]
        by_cases hk : c.NetworkUUID = k
        · subst hk; simp
        · have h1 : (c.NetworkUUID == k) = false := by simp [hk]
          have h2 : (k == c.NetworkUUID) = false := by
            simp only [beq_eq_false_iff_ne, ne_eq]
            intro h
            exact hk h.symm
          simp [h1, h2]
      · simp only [Bool.not_eq_true] at hh
        simp [hh]

/-- The network accumulation loop is a filter on the conjunction of its three
guard conditions. -/
theorem foldl_three_ifs {α : Type} (q1 q2 q3 : α → Bool) (l : List α) (acc : List α) :
    (l.foldl
      (fun a x =>
        if q1 x then a
        else if !(q2 x) then a
        else if !(q3 x) then a
        else a ++ [x])
      acc) =
    acc ++ l.filter (fun x => !(q1 x) && q2 x && q3 x) := by
  induction l generalizing acc with
  | nil => simp
  | cons x rest ih =>
    simp only [List.foldl_cons]
    rw [ih]
    cases h1 : q1 x <;> cases h2 : q2 x <;> cases h3 : q3 x <;>
      simp [List.filter_cons, h1, h2, h3]

/-- C4: for every mapping node and host, each entry whose value is a string
beginning with `__host_label__` is replaced as follows: when the string
contains a colon, the new value is the label value found under the
whitespace-trimmed part after the first colon (the empty string when the
label is absent or empty); when it contains no colon, the new value is the
empty string. -/
theorem c4_host_label_substitution (host : Host) (props : Props) (i : Nat)
    (k s : String)
    (hget : Props.get? props i = some (k, Node.str s))
    (hpre : hasPrefixGo s hostLabelKeyword = true) :
    Props.get? (nodeProps (UpdateCNIConfigByKeywords (Node.map props) host)) i =
      some (k, Node.str (match splitN2 s with
        | _ :: second :: _ => goMapGet host.Labels (trimGo second)
        | _ => "")) := by
  show Props.get? (updateProps props host) i = _
  rw [get?_updateProps, hget]
  simp only [Option.map, valUpdate, Option.some.injEq, Prod.mk.injEq, true_and,
    Node.str.injEq]
  simp only [substString, hpre, if_pos]
  cases hsp : splitN2 s with
  | nil => rfl
  | cons a tail =>
    cases tail with
    | nil => rfl
    | cons b tail2 =>
      dsimp only
      by_cases hz : goMapGet host.Labels (trimGo b) = ""
      · simp [hz]
      · have hb : (goMapGet host.Labels (trimGo b) != "") = true := by
          simp [bne, hz]
        rw [if_pos hb]

/-- Witness for C4 at a concrete mapping, host and entry. -/
theorem c4_witness :
    Props.get? (Props.cons "k" (Node.str "__host_label__: role ") Props.nil) 0 =
        some ("k", Node.str "__host_label__: role ") ∧
    hasPrefixGo "__host_label__: role " hostLabelKeyword = true ∧
    Props.get? (nodeProps (UpdateCNIConfigByKeywords
        (Node.map (Props.cons "k" (Node.str "__host_label__: role ") Props.nil))
        ⟨"h1", "e1", [("role", "db")]⟩)) 0 =
      some ("k", Node.str (match splitN2 "__host_label__: role " with
        | _ :: second :: _ => goMapGet [("role", "db")] (trimGo second)
        | _ => "")) :=
  ⟨by decide, by decide,
    c4_host_label_substitution ⟨"h1", "e1", [("role", "db")]⟩
      (Props.cons "k" (Node.str "__host_label__: role ") Props.nil) 0 "k"
      "__host_label__: role " (by decide) (by decide)⟩

/-- C5 as stated is false: when the value of a host label itself begins with
`__host_label__`, the first application substitutes that value in and the
second application substitutes again, so applying
`UpdateCNIConfigByKeywords` twice differs from applying it once. -/
theorem c5_counterexample :
    UpdateCNIConfigByKeywords
        (UpdateCNIConfigByKeywords
          (Node.map (Props.cons "k" (Node.str "__host_label__:a") Props.nil))
          ⟨"h", "e", [("a", "__host_label__:b"), ("b", "v")]⟩)
        ⟨"h", "e", [("a", "__host_label__:b"), ("b", "v")]⟩ ≠
      UpdateCNIConfigByKeywords
        (Node.map (Props.cons "k" (Node.str "__host_label__:a") Props.nil))
        ⟨"h", "e", [("a", "__host_label__:b"), ("b", "v")]⟩ := by
  decide

/-- C5 (amended): for every Configuration Node and every host none of whose
label values begins with `__host_label__`, applying
`UpdateCNIConfigByKeywords` twice yields the same tree as applying it
once. -/
theorem c5_idempotent_no_prefix_labels (host : Host)
    (hlab : ∀ p ∈ host.Labels, hasPrefixGo p.2 hostLabelKeyword = false)
    (n : Node) :
    UpdateCNIConfigByKeywords (UpdateCNIConfigByKeywords n host) host =
      UpdateCNIConfigByKeywords n host :=
  update_idem_of_labels host hlab n

/-- Witness for the amended C5 at a concrete host and tree. -/
theorem c5_witness :
    (∀ p ∈ [("role", "db")], hasPrefixGo p.2 hostLabelKeyword = false) ∧
    UpdateCNIConfigByKeywords
        (UpdateCNIConfigByKeywords
          (Node.map (Props.cons "k" (Node.str "__host_label__: role") Props.nil))
          ⟨"h", "e", [("role", "db")]⟩)
        ⟨"h", "e", [("role", "db")]⟩ =
      UpdateCNIConfigByKeywords
        (Node.map (Props.cons "k" (Node.str "__host_label__: role") Props.nil))
        ⟨"h", "e", [("role", "db")]⟩ :=
  ⟨by decide,
    c5_idempotent_no_prefix_labels ⟨"h", "e", [("role", "db")]⟩ (by decide)
      (Node.map (Props.cons "k" (Node.str "__host_label__: role") Props.nil))⟩

/-- C6: every string leaf that does not begin with `__host_label__` is left
byte-for-byte unchanged by `UpdateCNIConfigByKeywords`, and a top-level node
that is not a mapping is returned unchanged. -/
theorem c6_non_prefix_leaves_unchanged (host : Host) (n : Node) :
    (∀ (path : List String) (s : String),
        getPath n path = some (Node.str s) →
        hasPrefixGo s hostLabelKeyword = false →
        getPath (UpdateCNIConfigByKeywords n host) path = some (Node.str s)) ∧
    ((∀ props : Props, n ≠ Node.map props) →
        UpdateCNIConfigByKeywords n host = n) := by
  constructor
  · intro path s hget hpre
    cases path with
    | nil =>
      simp only [getPath, Option.some.injEq] at hget
      subst hget
      simp [UpdateCNIConfigByKeywords, getPath]
    | cons k rest =>
      rw [getPath_update host (k :: rest) n (Node.str s) (by simp) hget]
      simp only [valUpdate, Option.some.injEq, Node.str.injEq]
      exact substString_of_not_prefixed s host hpre
  · intro h
    cases n with
    | map props => exact absurd rfl (h props)
    | str s => rfl
    | num i => rfl
    | list l => rfl

/-- Witness for C6 at a concrete tree that also contains a placeholder
leaf, and at a concrete non-mapping node. -/
theorem c6_witness :
    getPath (Node.map (Props.cons "a" (Node.str "keep")
        (Props.cons "b" (Node.str "__host_label__: role") Props.nil))) ["a"] =
      some (Node.str "keep") ∧
    hasPrefixGo "keep" hostLabelKeyword = false ∧
    getPath (UpdateCNIConfigByKeywords
        (Node.map (Props.cons "a" (Node.str "keep")
          (Props.cons "b" (Node.str "__host_label__: role") Props.nil)))
        ⟨"h", "e", [("role", "db")]⟩) ["a"] = some (Node.str "keep") ∧
    UpdateCNIConfigByKeywords (Node.str "plain") ⟨"h", "e", [("role", "db")]⟩ =
      Node.str "plain" :=
  ⟨by decide, by decide,
    (c6_non_prefix_leaves_unchanged ⟨"h", "e", [("role", "db")]⟩
        (Node.map (Props.cons "a" (Node.str "keep")
          (Props.cons "b" (Node.str "__host_label__: role") Props.nil)))).1
      ["a"] "keep" (by decide) (by decide),
    (c6_non_prefix_leaves_unchanged ⟨"h", "e", [("role", "db")]⟩
        (Node.str "plain")).2 (fun props h => Node.noConfusion h)⟩

/-- C10: `UpdateCNIConfigByKeywords` returns a list node unchanged, and any
list subtree reached through mapping keys is preserved whole, so placeholder
strings below a list are never substituted. -/
theorem c10_lists_unchanged (host : Host) :
    (∀ l : NodeList, UpdateCNIConfigByKeywords (Node.list l) host = Node.list l) ∧
    (∀ (n : Node) (path : List String) (l : NodeList),
        getPath n path = some (Node.list l) →
        getPath (UpdateCNIConfigByKeywords n host) path = some (Node.list l)) := by
  constructor
  · intro l; rfl
  · intro n path l hget
    cases path with
    | nil =>
      simp only [getPath, Option.some.injEq] at hget
      subst hget
      simp [UpdateCNIConfigByKeywords, getPath]
    | cons k rest =>
      rw [getPath_update host (k :: rest) n (Node.list l) (by simp) hget]
      rfl

/-- Witness for C10: a placeholder inside a mapping nested within a list is
left untouched. -/
theorem c10_witness :
    getPath (Node.map (Props.cons "a"
        (Node.list (NodeList.cons
          (Node.map (Props.cons "x" (Node.str "__host_label__:b") Props.nil))
          NodeList.nil)) Props.nil)) ["a"] =
      some (Node.list (NodeList.cons
        (Node.map (Props.cons "x" (Node.str "__host_label__:b") Props.nil))
        NodeList.nil)) ∧
    getPath (UpdateCNIConfigByKeywords
        (Node.map (Props.cons "a"
          (Node.list (NodeList.cons
            (Node.map (Props.cons "x" (Node.str "__host_label__:b") Props.nil))
            NodeList.nil)) Props.nil))
        ⟨"h", "e", [("b", "v")]⟩) ["a"] =
      some (Node.list (NodeList.cons
        (Node.map (Props.cons "x" (Node.str "__host_label__:b") Props.nil))
        NodeList.nil)) :=
  ⟨by decide,
    (c10_lists_unchanged ⟨"h", "e", [("b", "v")]⟩).2
      (Node.map (Props.cons "a"
        (Node.list (NodeList.cons
          (Node.map (Props.cons "x" (Node.str "__host_label__:b") Props.nil))
          NodeList.nil)) Props.nil)) ["a"]
      (NodeList.cons
        (Node.map (Props.cons "x" (Node.str "__host_label__:b") Props.nil))
        NodeList.nil) (by decide)⟩

/-- The rancher-bridge CNI file with bridge `docker0` and subnet
`10.42.0.0/16`. -/
def bridgeFile0 : Props :=
  Props.cons "type" (Node.str "rancher-bridge")
    (Props.cons "bridge" (Node.str "docker0")
      (Props.cons "bridgeSubnet" (Node.str "10.42.0.0/16") Props.nil))

/-- C8: when the cniConfig mapping holds exactly one file with
`type="rancher-bridge"`, `bridge="docker0"` and
`bridgeSubnet="10.42.0.0/16"`, `GetBridgeInfo` returns
`("docker0", "10.42.0.0/16")`; in general a first file whose (substituted)
type is `rancher-bridge` with a non-empty bridge fixes the returned bridge
and the same file's subnet is returned. -/
theorem c8_bridge_info :
    (∀ (network : Network) (host : Host) (fname : String),
        Props.lookup network.Metadata "cniConfig" =
          some (Node.map (Props.cons fname (Node.map bridgeFile0) Props.nil)) →
        GetBridgeInfo network host = ("docker0", "10.42.0.0/16")) ∧
    (∀ (network : Network) (host : Host) (fname : String) (f : Node)
        (rest : Props),
        Props.lookup network.Metadata "cniConfig" =
          some (Node.map (Props.cons fname f rest)) →
        nodeStr (UpdateCNIConfigByKeywords f host) "type" = "rancher-bridge" →
        nodeStr (UpdateCNIConfigByKeywords f host) "bridge" ≠ "" →
        GetBridgeInfo network host =
          (nodeStr (UpdateCNIConfigByKeywords f host) "bridge",
           nodeStr (UpdateCNIConfigByKeywords f host) "bridgeSubnet")) := by
  have main : ∀ (network : Network) (host : Host) (fname : String) (f : Node)
      (rest : Props),
      Props.lookup network.Metadata "cniConfig" =
        some (Node.map (Props.cons fname f rest)) →
      nodeStr (UpdateCNIConfigByKeywords f host) "type" = "rancher-bridge" →
      nodeStr (UpdateCNIConfigByKeywords f host) "bridge" ≠ "" →
      GetBridgeInfo network host =
        (nodeStr (UpdateCNIConfigByKeywords f host) "bridge",
         nodeStr (UpdateCNIConfigByKeywords f host) "bridgeSubnet") := by
    intro network host fname f rest hl ht hb
    simp only [nodeStr] at ht hb ⊢
    have hconf : confOf network = Props.cons fname f rest := by
      simp [confOf, hl]
    have hcond : (propsStr (nodeProps (UpdateCNIConfigByKeywords f host)) "type"
        == "rancher-bridge" &&
        propsStr (nodeProps (UpdateCNIConfigByKeywords f host)) "bridge" != "")
        = true := by
      rw [ht]
      simp [bne, hb]
    show bridgeLoop host (confOf network) "" "" = _
    rw [hconf]
    simp only [bridgeLoop]
    rw [if_pos hcond]
  refine ⟨?_, main⟩
  intro network host fname hl
  rw [main network host fname (Node.map bridgeFile0) Props.nil hl rfl
    (fun h => (by decide : ¬(("docker0" : String) = "")) h)]
  rfl

/-- Witness for C8 at a concrete network and host. -/
theorem c8_witness :
    Props.lookup
        (Props.cons "cniConfig"
          (Node.map (Props.cons "10-rancher.conf" (Node.map bridgeFile0)
            Props.nil)) Props.nil : Props) "cniConfig" =
      some (Node.map (Props.cons "10-rancher.conf" (Node.map bridgeFile0)
        Props.nil)) ∧
    GetBridgeInfo
        ⟨"n1", "env1",
          Props.cons "cniConfig"
            (Node.map (Props.cons "10-rancher.conf" (Node.map bridgeFile0)
              Props.nil)) Props.nil⟩
        ⟨"h1", "env1", []⟩ = ("docker0", "10.42.0.0/16") :=
  ⟨by decide,
    c8_bridge_info.1
      ⟨"n1", "env1",
        Props.cons "cniConfig"
          (Node.map (Props.cons "10-rancher.conf" (Node.map bridgeFile0)
            Props.nil)) Props.nil⟩
      ⟨"h1", "env1", []⟩ "10-rancher.conf" (by decide)⟩

/-- C9: when the network metadata has no `cniConfig` entry, or its value is
not a mapping, `GetBridgeInfo` returns the pair of empty strings. -/
theorem c9_bridge_info_no_config (network : Network) (host : Host)
    (h : isPropsMap (Props.lookup network.Metadata "cniConfig") = false) :
    GetBridgeInfo network host = ("", "") := by
  have hconf : confOf network = Props.nil := by
    unfold confOf
    cases hl : Props.lookup network.Metadata "cniConfig" with
    | none => rfl
    | some v =>
      cases v with
      | map m => rw [hl] at h; simp [isPropsMap] at h
      | str s => rfl
      | num i => rfl
      | list l => rfl
  show bridgeLoop host (confOf network) "" "" = _
  rw [hconf]
  rfl

/-- Witness for C9 at a network with empty metadata. -/
theorem c9_witness :
    isPropsMap (Props.lookup (Props.nil : Props) "cniConfig") = false ∧
    GetBridgeInfo ⟨"n9", "env1", Props.nil⟩ ⟨"h1", "env1", []⟩ = ("", "") :=
  ⟨by decide, c9_bridge_info_no_config ⟨"n9", "env1", Props.nil⟩
    ⟨"h1", "env1", []⟩ (by decide)⟩

theorem getLocal_single (networks : List Network) (host : Host)
    (services : List Service) (cd : Service)
    (h1 : services.filter (fun s => s.Kind == "networkDriverService") = [cd]) :
    GetLocalNetworksAndRouters networks host services =
      resolveWithCandidates networks host services [cd] := by
  unfold GetLocalNetworksAndRouters
  rw [h1]
  simp

theorem resolve_routers_lookup (networks : List Network) (host : Host)
    (services : List Service) (cd ns : Service)
    (h2 : services.find? (fun s =>
        s.StackUUID == cd.StackUUID && s.UUID != cd.UUID &&
        s.Name == s.PrimaryServiceName) = some ns)
    (rest : List Service) (k : String) :
    (resolveWithCandidates networks host services (cd :: rest)).2 k =
      lastMatch (fun c => c.HostUUID == host.UUID && c.NetworkUUID == k)
        ns.Containers := by
  unfold resolveWithCandidates
  dsimp only
  rw [h2]
  dsimp only
  rw [foldl_routers host.UUID ns.Containers (fun _ => none) k]
  cases lastMatch (fun c => c.HostUUID == host.UUID && c.NetworkUUID == k)
      ns.Containers <;> rfl

/-- C1: with exactly one `networkDriverService`-kind service and `ns` the
first co-stack service (different UUID) whose name equals its own primary
service name, the returned router map holds, at each network UUID, exactly
the last container of `ns` on this host for that network, and nothing
else. -/
theorem c1_routers_from_network_service (networks : List Network) (host : Host)
    (services : List Service) (cd ns : Service)
    (h1 : services.filter (fun s => s.Kind == "networkDriverService") = [cd])
    (h2 : services.find? (fun s =>
        s.StackUUID == cd.StackUUID && s.UUID != cd.UUID &&
        s.Name == s.PrimaryServiceName) = some ns) :
    ∀ k : String, (GetLocalNetworksAndRouters networks host services).2 k =
      lastMatch (fun c => c.HostUUID == host.UUID && c.NetworkUUID == k)
        ns.Containers := by
  intro k
  rw [getLocal_single networks host services cd h1]
  exact resolve_routers_lookup networks host services cd ns h2 [] k

/-- Sample host used by witnesses. -/
def host1 : Host := ⟨"h1", "env1", []⟩

/-- Sample containers used by witnesses. -/
def routerA : Container := ⟨"ca", "h1", "n1", "running"⟩

def routerB : Container := ⟨"cb", "h2", "n1", "running"⟩

def routerC : Container := ⟨"cc", "h1", "n1", "stopped"⟩

def routerD : Container := ⟨"cd", "h1", "n2", "running"⟩

/-- Sample CNI driver service used by witnesses. -/
def svcDriver : Service :=
  ⟨"u1", "st", "networkDriverService", "cni-driver", "cni-driver", []⟩

/-- Sample primary network service in the driver's stack. -/
def svcNet : Service :=
  ⟨"u2", "st", "service", "net", "net", [routerA, routerB, routerC, routerD]⟩

/-- Sample second driver-kind service not named `cni-driver`. -/
def svcOther : Service :=
  ⟨"u3", "st3", "networkDriverService", "weave", "weave", []⟩

/-- Sample network local to `host1`. -/
def netA : Network :=
  ⟨"n1", "env1", Props.cons "cniConfig" (Node.map Props.nil) Props.nil⟩

/-- Witness for C1: with the driver and network services above, the router
map at network `n1` holds the last matching container of the network
service. -/
theorem c1_witness :
    ([svcDriver, svcNet].filter (fun s => s.Kind == "networkDriverService") =
      [svcDriver]) ∧
    ([svcDriver, svcNet].find? (fun s =>
        s.StackUUID == svcDriver.StackUUID && s.UUID != svcDriver.UUID &&
        s.Name == s.PrimaryServiceName) = some svcNet) ∧
    (GetLocalNetworksAndRouters [] host1 [svcDriver, svcNet]).2 "n1" =
      lastMatch (fun c => c.HostUUID == host1.UUID && c.NetworkUUID == "n1")
        svcNet.Containers :=
  ⟨by decide, by decide,
    c1_routers_from_network_service [] host1 [svcDriver, svcNet] svcDriver
      svcNet (by decide) (by decide) "n1"⟩

theorem networks_loop_filter (host : Host) (R : String → Option Container)
    (networks : List Network) :
    networks.foldl
      (fun acc n =>
        if n.EnvironmentUUID != host.EnvironmentUUID then acc
        else if !(hasCniConfig n) then acc
        else if !((R n.UUID).isSome) then acc
        else acc ++ [n])
      [] =
    networks.filter (fun n =>
      (n.EnvironmentUUID == host.EnvironmentUUID) && hasCniConfig n &&
      (R n.UUID).isSome) := by
  rw [foldl_three_ifs (fun n => n.EnvironmentUUID != host.EnvironmentUUID)
    hasCniConfig (fun n => (R n.UUID).isSome) networks []]
  simp only [bne, Bool.not_not, List.nil_append]

theorem resolve_networks_spec (networks : List Network) (host : Host)
    (services : List Service) (cands : List Service) :
    (resolveWithCandidates networks host services cands).1 =
      networks.filter (fun n =>
        (n.EnvironmentUUID == host.EnvironmentUUID) && hasCniConfig n &&
        ((resolveWithCandidates networks host services cands).2 n.UUID).isSome) ∧
    ∀ n ∈ (resolveWithCandidates networks host services cands).1,
      n.EnvironmentUUID = host.EnvironmentUUID := by
  have hfilter : (resolveWithCandidates networks host services cands).1 =
      networks.filter (fun n =>
        (n.EnvironmentUUID == host.EnvironmentUUID) && hasCniConfig n &&
        ((resolveWithCandidates networks host services cands).2 n.UUID).isSome) := by
    unfold resolveWithCandidates
    dsimp only
    exact networks_loop_filter host _ networks
  refine ⟨hfilter, ?_⟩
  intro n hn
  rw [hfilter] at hn
  simp only [List.mem_filter, Bool.and_eq_true, beq_iff_eq] at hn
  exact hn.2.1.1

/-- C2: the returned `localNetworks` is the input `networks` filtered, in
order, to those whose environment matches the host's, whose metadata holds
a mapping-shaped `cniConfig`, and whose UUID has a router entry; in
particular every returned network has the host's environment UUID. -/
theorem c2_localNetworks_filter (networks : List Network) (host : Host)
    (services : List Service) :
    (GetLocalNetworksAndRouters networks host services).1 =
      networks.filter (fun n =>
        (n.EnvironmentUUID == host.EnvironmentUUID) && hasCniConfig n &&
        ((GetLocalNetworksAndRouters networks host services).2 n.UUID).isSome) ∧
    ∀ n ∈ (GetLocalNetworksAndRouters networks host services).1,
      n.EnvironmentUUID = host.EnvironmentUUID := by
  unfold GetLocalNetworksAndRouters
  exact resolve_networks_spec networks host services _

/-- Witness for C2: a matching network is kept and its environment equals
the host's. -/
theorem c2_witness :
    netA ∈ (GetLocalNetworksAndRouters [netA] host1 [svcDriver, svcNet]).1 ∧
    netA.EnvironmentUUID = host1.EnvironmentUUID :=
  ⟨by decide,
    (c2_localNetworks_filter [netA] host1 [svcDriver, svcNet]).2 netA
      (by decide)⟩

/-- C3: each of the three fetches failing makes
`GetLocalNetworksAndRoutersFromMetadata` return that error unchanged with
no results, independently of the later fetches, and a fully successful
client yields the two outputs of `GetLocalNetworksAndRouters` with no
error. -/
theorem c3_error_propagation (ε : Type) (e : ε) (nets : List Network)
    (h : Host) (svcs : List Service) :
    (∀ (gh : Except ε Host) (gs : Except ε (List Service)),
        GetLocalNetworksAndRoutersFromMetadata ⟨Except.error e, gh, gs⟩ =
          (none, none, some e)) ∧
    (∀ gs : Except ε (List Service),
        GetLocalNetworksAndRoutersFromMetadata
          ⟨Except.ok nets, Except.error e, gs⟩ = (none, none, some e)) ∧
    GetLocalNetworksAndRoutersFromMetadata
        ⟨Except.ok nets, Except.ok h, Except.error e⟩ = (none, none, some e) ∧
    GetLocalNetworksAndRoutersFromMetadata
        (⟨Except.ok nets, Except.ok h, Except.ok svcs⟩ : MClient ε) =
      (some (GetLocalNetworksAndRouters nets h svcs).1,
       some (GetLocalNetworksAndRouters nets h svcs).2, none) :=
  ⟨fun _ _ => rfl, fun _ => rfl, rfl, rfl⟩

/-- C7: when the number of `networkDriverService`-kind services is not
exactly one, resolution proceeds with those of them named `cni-driver`; in
particular two driver-kind services, one named `cni-driver` and one not,
reduce to the single `cni-driver` candidate. -/
theorem c7_fallback_filter (networks : List Network) (host : Host)
    (services : List Service) :
    ((services.filter (fun s => s.Kind == "networkDriverService")).length ≠ 1 →
      GetLocalNetworksAndRouters networks host services =
        resolveWithCandidates networks host services
          ((services.filter (fun s => s.Kind == "networkDriverService")).filter
            (fun s => s.Name == "cni-driver"))) ∧
    (∀ s1 s2 : Service,
      s1.Kind = "networkDriverService" → s2.Kind = "networkDriverService" →
      s1.Name = "cni-driver" → s2.Name ≠ "cni-driver" →
      GetLocalNetworksAndRouters networks host [s1, s2] =
        resolveWithCandidates networks host [s1, s2] [s1]) := by
  have part1 : ∀ svcs : List Service,
      (svcs.filter (fun s => s.Kind == "networkDriverService")).length ≠ 1 →
      GetLocalNetworksAndRouters networks host svcs =
        resolveWithCandidates networks host svcs
          ((svcs.filter (fun s => s.Kind == "networkDriverService")).filter
            (fun s => s.Name == "cni-driver")) := by
    intro svcs hlen
    unfold GetLocalNetworksAndRouters
    dsimp only
    rw [if_pos (by simpa [bne_iff_ne] using hlen)]
  refine ⟨part1 services, ?_⟩
  intro s1 s2 hk1 hk2 hn1 hn2
  have hf : ([s1, s2].filter (fun s => s.Kind == "networkDriverService")) =
      [s1, s2] := by
    simp [List.filter_cons, hk1, hk2]
  have hlen :
      (([s1, s2].filter (fun s => s.Kind == "networkDriverService")).length ≠ 1) := by
    rw [hf]
    simp
  rw [part1 [s1, s2] hlen, hf]
  have hname : ([s1, s2].filter (fun s => s.Name == "cni-driver")) = [s1] := by
    simp [List.filter_cons, hn1, hn2]
  rw [hname]

/-- Witness for C7 with two driver-kind services, only one named
`cni-driver`. -/
theorem c7_witness :
    (([svcOther, svcDriver] : List Service).filter
      (fun s => s.Kind == "networkDriverService")).length ≠ 1 ∧
    GetLocalNetworksAndRouters [] host1 [svcOther, svcDriver] =
      resolveWithCandidates [] host1 [svcOther, svcDriver]
        ((([svcOther, svcDriver] : List Service).filter
          (fun s => s.Kind == "networkDriverService")).filter
          (fun s => s.Name == "cni-driver")) :=
  ⟨by decide,
    (c7_fallback_filter [] host1 [svcOther, svcDriver]).1 (by decide)⟩

end PluginManager
